import Mathlib

/-
Verification development for the async-javascript repository.

The spec of the repository reconstructs a minimal cooperative core out of the
teaching material: a single-threaded Task Queue / Scheduler, a DeferredValue
(future) primitive with observer/resolver handles, and a Suspendable Routine
(coroutine) state machine.  No implementation of that core lives under src/
(the source files are illustrative call sites: native-promise and generator
snippets whose comments document the intended behaviour), so the core is
modelled here from the spec, faithful to its words and to the behaviour the
snippets document.
-/

namespace Async

/-- Modelled from the spec: the universe of values flowing through the core
(the DeferredValue implementation is missing from src/).  The design notes of
the spec call for an explicit tagged union of plain values and observer
handles passed to fulfill; `handle pid` is the observer handle of the
DeferredValue with identifier `pid`. -/
inductive JVal where
  | undefined
  | num (n : Nat)
  | str (s : String)
  | list (vs : List JVal)
  | handle (pid : Nat)

/-- Modelled from the spec: the outcome a DeferredValue settles to. -/
inductive Outcome where
  | fulfilled (v : JVal)
  | rejected (e : JVal)

/-- Modelled from the spec: state of a DeferredValue, Pending or settled
(Fulfilled(value) / Rejected(error)). -/
inductive PStatus where
  | pending
  | settled (o : Outcome)

/-- Result of running a user reaction: a normal return or a thrown error. -/
inductive RResult where
  | ok (v : JVal)
  | err (e : JVal)

/-- Modelled from the spec: what a registered reaction does with the outcome
it receives.  `handler f` is a user-supplied reaction; `through` is the
pass-through used for an omitted reaction, for outcome adoption when a value
is fulfilled with another observer handle, and for `firstSettled`;
`allSlot i` stores a fulfillment into slot `i` of an `allOf` accumulator. -/
inductive RSpec where
  | handler (f : JVal → RResult)
  | through
  | allSlot (i : Nat)

/-- Modelled from the spec: a subscription entry attached to a DeferredValue,
one reaction for each branch plus the identifier of the DeferredValue that
the reaction result drives. -/
structure Sub where
  onF : RSpec
  onR : RSpec
  target : Nat

/-- Modelled from the spec: a ScheduledTask.  `react` is a settlement
notification deferred to a later scheduler turn; `job` is an opaque unit of
work that, when run, may submit new tasks (its `spawns`). -/
inductive Task where
  | react (sub : Sub) (o : Outcome)
  | job (id : Nat) (spawns : List Task)

/-- Execution-log entry: a reaction ran against its target, or a job ran. -/
inductive Event where
  | reacted (target : Nat)
  | ran (id : Nat)

/-- Modelled from the spec: one DeferredValue record (the implementation is
missing from src/).  `resolved` is the write-once latch of the resolver
handle (first settlement wins); `subs` holds registered reactions in
insertion order; `cells` is the accumulator used by `allOf`. -/
structure Prom where
  status : PStatus
  resolved : Bool
  subs : List Sub
  cells : List (Option JVal)

/-- Modelled from the spec: the whole core - the DeferredValue store, the
fresh-identifier counter, the FIFO queue of the Scheduler, and an execution
log recording which reactions and jobs have actually run. -/
structure Machine where
  promises : Nat → Option Prom
  nextId : Nat
  queue : List Task
  log : List Event

/-- The empty machine: no promises, empty queue, empty log. -/
def mkMachine : Machine := ⟨fun _ => none, 0, [], []⟩

/-- Store update at one identifier. -/
def updP (m : Nat → Option Prom) (i : Nat) (p : Prom) : Nat → Option Prom :=
  fun j => if j = i then some p else m j

/-- Modelled from the spec: `create()` returns a fresh Pending DeferredValue
(the returned identifier stands for the linked observer/resolver pair). -/
def create (s : Machine) : Machine × Nat :=
  ({ s with
      promises := updP s.promises s.nextId ⟨.pending, false, [], []⟩,
      nextId := s.nextId + 1 }, s.nextId)

/-- Status of the DeferredValue with a given identifier. -/
def statusOf (s : Machine) (pid : Nat) : Option PStatus :=
  (s.promises pid).map Prom.status

/-- Whether the resolver of a DeferredValue has already been used. -/
def resolvedAt (s : Machine) (pid : Nat) : Bool :=
  match s.promises pid with
  | none => true
  | some pr => pr.resolved

/-- Modelled from the spec: attach a subscription entry to a DeferredValue.
If it is still Pending the entry is recorded in insertion order; if it is
already settled the notification is still scheduled onto the Scheduler
(never run synchronously). -/
def addSub (s : Machine) (pid : Nat) (sub : Sub) : Machine :=
  match s.promises pid with
  | none => s
  | some pr =>
    match pr.status with
    | .pending =>
        { s with promises := updP s.promises pid { pr with subs := pr.subs ++ [sub] } }
    | .settled o =>
        { s with queue := s.queue ++ [.react sub o] }

/-- Modelled from the spec: the internal settle transition - Pending goes to
the given outcome exactly once, and every registered reaction is scheduled
onto the Scheduler in registration order (settle now, notify later); a later
settle attempt is a no-op. -/
def settle (s : Machine) (pid : Nat) (o : Outcome) : Machine :=
  match s.promises pid with
  | none => s
  | some pr =>
    match pr.status with
    | .settled _ => s
    | .pending =>
        { s with
            promises := updP s.promises pid { pr with status := .settled o, subs := [] },
            queue := s.queue ++ pr.subs.map (fun sub => Task.react sub o) }

/-- Set the resolver latch of a DeferredValue. -/
def markResolved (s : Machine) (pid : Nat) : Machine :=
  match s.promises pid with
  | none => s
  | some pr => { s with promises := updP s.promises pid { pr with resolved := true } }

/-- Modelled from the spec: resolution of a DeferredValue with a value.  If
the value is an observer handle of another DeferredValue, settlement is
deferred: pass-through reactions are attached to the inner value so this one
adopts its outcome once it settles.  Otherwise the value settles fulfilled. -/
def resolveInternal (s : Machine) (pid : Nat) (v : JVal) : Machine :=
  match v with
  | .handle q => addSub s q ⟨.through, .through, pid⟩
  | .undefined => settle s pid (.fulfilled .undefined)
  | .num n => settle s pid (.fulfilled (.num n))
  | .str t => settle s pid (.fulfilled (.str t))
  | .list vs => settle s pid (.fulfilled (.list vs))

/-- Modelled from the spec: the resolver fulfill operation - a no-op after
the first fulfill/reject call on this resolver; on the first call the latch
is set and the value is resolved (with observer-handle adoption). -/
def fulfill (s : Machine) (pid : Nat) (v : JVal) : Machine :=
  match s.promises pid with
  | none => s
  | some pr =>
      if pr.resolved then s
      else resolveInternal (markResolved s pid) pid v

/-- Modelled from the spec: the resolver reject operation - a no-op after
the first fulfill/reject call; rejection never adopts an inner value, even
when the reason is an observer handle. -/
def reject (s : Machine) (pid : Nat) (e : JVal) : Machine :=
  match s.promises pid with
  | none => s
  | some pr =>
      if pr.resolved then s
      else settle (markResolved s pid) pid (.rejected e)

/-- Modelled from the spec: store a fulfillment into slot `i` of an `allOf`
accumulator; when every slot is filled the combined value fulfills with the
ordered collection. -/
def allStore (s : Machine) (pid : Nat) (i : Nat) (v : JVal) : Machine :=
  match s.promises pid with
  | none => s
  | some pr =>
    let cells := pr.cells.set i (some v)
    let s1 := { s with promises := updP s.promises pid { pr with cells := cells } }
    if cells.all Option.isSome then
      settle s1 pid (.fulfilled (.list (cells.map (fun c => c.getD .undefined))))
    else s1

/-- Modelled from the spec: deliver a settlement notification to one
subscription entry.  A user reaction that returns normally resolves the
target with its return value (even on the rejection branch); one that throws
rejects the target with the thrown cause; a pass-through propagates the
outcome unchanged; an `allSlot` feeds the `allOf` accumulator. -/
def runReact (s : Machine) (sub : Sub) (o : Outcome) : Machine :=
  let s1 := { s with log := s.log ++ [Event.reacted sub.target] }
  match o with
  | .fulfilled v =>
    match sub.onF with
    | .handler f =>
      match f v with
      | .ok w => resolveInternal s1 sub.target w
      | .err e => settle s1 sub.target (.rejected e)
    | .through => resolveInternal s1 sub.target v
    | .allSlot i => allStore s1 sub.target i v
  | .rejected e =>
    match sub.onR with
    | .handler f =>
      match f e with
      | .ok w => resolveInternal s1 sub.target w
      | .err e2 => settle s1 sub.target (.rejected e2)
    | .through => settle s1 sub.target (.rejected e)
    | .allSlot _ => settle s1 sub.target (.rejected e)

/-- Modelled from the spec: run one ScheduledTask to completion.  A job logs
its run and appends whatever it submits to the end of the queue (strict
FIFO, never depth-first). -/
def runTask (s : Machine) : Task → Machine
  | .react sub o => runReact s sub o
  | .job id spawns => { s with log := s.log ++ [Event.ran id], queue := s.queue ++ spawns }

/-- Modelled from the spec: the Scheduler submit operation appends the task
to the end of the queue and never executes it synchronously. -/
def submit (s : Machine) (t : Task) : Machine :=
  { s with queue := s.queue ++ [t] }

/-- Modelled from the spec: `runUntilIdle()` repeatedly pops the oldest
queued task and runs it to completion until the queue is empty (fuel bounds
the number of turns). -/
def runUntilIdle : Nat → Machine → Machine
  | 0, s => s
  | n + 1, s =>
    match s.queue with
    | [] => s
    | t :: q => runUntilIdle n (runTask { s with queue := q } t)

/-- Translate an optional user reaction into its subscription behaviour: an
omitted reaction is pass-through. -/
def toSpec : Option (JVal → RResult) → RSpec
  | some f => .handler f
  | none => .through

/-- Modelled from the spec: `observer.subscribe(onFulfill, onReject)` returns
a new DeferredValue driven by running the matching reaction against the
settled outcome; an already-settled source still only schedules the reaction
onto the Scheduler. -/
def subscribe (s : Machine) (pid : Nat) (onF onR : Option (JVal → RResult)) :
    Machine × Nat :=
  let cid := s.nextId
  let s1 := (create s).1
  (addSub s1 pid ⟨toSpec onF, toSpec onR, cid⟩, cid)

/-- Replace the `allOf` accumulator of a DeferredValue. -/
def setCells (s : Machine) (pid : Nat) (cs : List (Option JVal)) : Machine :=
  match s.promises pid with
  | none => s
  | some pr => { s with promises := updP s.promises pid { pr with cells := cs } }

/-- Attach one `allSlot` subscription per input, in input order. -/
def attachSlots (rid : Nat) : Machine → List Nat → Nat → Machine
  | s, [], _ => s
  | s, p :: ps, i => attachSlots rid (addSub s p ⟨.allSlot i, .through, rid⟩) ps (i + 1)

/-- Modelled from the spec: `allOf(observers)` fulfills with the ordered
collection of all results once every input has fulfilled, or rejects with
the first rejection reason to fire. -/
def allOf (s : Machine) (pids : List Nat) : Machine × Nat :=
  let res := create s
  let rid := res.2
  let s1 := setCells res.1 rid (List.replicate pids.length none)
  let s2 := attachSlots rid s1 pids 0
  let s3 := if pids = [] then settle s2 rid (.fulfilled (.list [])) else s2
  (s3, rid)

/-- Attach one pass-through subscription per input. -/
def attachRace (rid : Nat) : Machine → List Nat → Machine
  | s, [] => s
  | s, p :: ps => attachRace rid (addSub s p ⟨.through, .through, rid⟩) ps

/-- Modelled from the spec: `firstSettled(observers)` settles identically to
whichever input settles first in scheduling order; later settlements of the
other inputs are ignored. -/
def firstSettled (s : Machine) (pids : List Nat) : Machine × Nat :=
  let res := create s
  (attachRace res.2 res.1 pids, res.2)

/-- A machine holding one DeferredValue already fulfilled with 5 (used to
instantiate the deferred-notification theorem on a concrete input). -/
def wSettled : Machine := fulfill (create mkMachine).1 0 (.num 5)

/-- Modelled from the spec: the frame of a Suspendable Routine - its local
variable bindings. -/
def Env : Type := String → JVal

/-- Bind one frame variable. -/
def setE (env : Env) (x : String) (v : JVal) : Env :=
  fun y => if y = x then v else env y

/-- Modelled from the spec: the body of a Suspendable Routine (the routine
machinery is missing from src/; the generator snippets only exercise it).
`basic` is a labelled straight-line step over the frame, `pause x` a pause
point whose resumption value is bound to `x`, `ret` terminates the body with
a value, `seq` sequences, and `tryFin body cleanup` is the structured
finally-equivalent cleanup block honoured by forced termination. -/
inductive Stmt where
  | basic (label : Nat) (f : Env → Env)
  | skip
  | pause (x : String)
  | ret (e : Env → JVal)
  | seq (a b : Stmt)
  | tryFin (body cleanup : Stmt)

/-- An abrupt completion travelling outwards: forced return or raised error. -/
inductive Comp where
  | retC (v : JVal)
  | throwC (e : JVal)

/-- Completion saved while a cleanup block runs; it is restored when the
cleanup finishes normally. -/
inductive Saved where
  | normS
  | retS (v : JVal)
  | throwS (e : JVal)

/-- Continuation frame of the routine interpreter: pending second half of a
sequence, an armed cleanup block, or a saved completion to restore after a
cleanup block finishes. -/
inductive KFrame where
  | seqK (b : Stmt)
  | fin (cleanup : Stmt)
  | afterFin (saved : Saved)

/-- Interpreter mode: executing a statement, completing normally, or
unwinding with an abrupt completion. -/
inductive Mode where
  | exec (s : Stmt)
  | norm
  | unwind (c : Comp)

/-- Result of driving the routine until it pauses or terminates. -/
inductive RunOut where
  | paused (x : String) (k : List KFrame) (env : Env) (log : List Nat)
  | completed (v : JVal) (log : List Nat)
  | failed (e : JVal) (log : List Nat)

/-- Termination weight of a statement. -/
def stmtW : Stmt → Nat
  | .basic _ _ => 1
  | .skip => 1
  | .pause _ => 1
  | .ret _ => 1
  | .seq a b => 2 + stmtW a + stmtW b
  | .tryFin b c => 3 + stmtW b + stmtW c

/-- Termination weight of a continuation frame. -/
def frameW : KFrame → Nat
  | .seqK b => 1 + stmtW b
  | .fin c => 2 + stmtW c
  | .afterFin _ => 1

/-- Termination weight of a continuation stack. -/
def stackW : List KFrame → Nat
  | [] => 0
  | f :: k => frameW f + stackW k

/-- Termination weight of a whole interpreter configuration. -/
def modeW : Mode → List KFrame → Nat
  | .exec s, k => stmtW s + stackW k
  | .norm, k => stackW k
  | .unwind _, k => stackW k

/-- The completion saved on entering a cleanup block during an unwind. -/
def savedOf : Comp → Saved
  | .retC v => .retS v
  | .throwC e => .throwS e

/-- Modelled from the spec: drive the routine body until it completes, fails,
or reaches a pause point.  An abrupt completion unwinds outwards, but an
armed cleanup block intercepts it, runs with the completion saved, and may
itself reach a pause point, postponing termination; when the cleanup
finishes normally the saved completion resumes.  The log records every
executed `basic` label. -/
def runM (m : Mode) (k : List KFrame) (env : Env) (log : List Nat) : RunOut :=
  match m, k with
  | .exec (.basic l f), k => runM .norm k (f env) (log ++ [l])
  | .exec .skip, k => runM .norm k env log
  | .exec (.pause x), k => .paused x k env log
  | .exec (.ret e), k => runM (.unwind (.retC (e env))) k env log
  | .exec (.seq a b), k => runM (.exec a) (.seqK b :: k) env log
  | .exec (.tryFin b c), k => runM (.exec b) (.fin c :: k) env log
  | .norm, [] => .completed .undefined log
  | .norm, .seqK b :: k => runM (.exec b) k env log
  | .norm, .fin c :: k => runM (.exec c) (.afterFin .normS :: k) env log
  | .norm, .afterFin .normS :: k => runM .norm k env log
  | .norm, .afterFin (.retS v) :: k => runM (.unwind (.retC v)) k env log
  | .norm, .afterFin (.throwS e) :: k => runM (.unwind (.throwC e)) k env log
  | .unwind (.retC v), [] => .completed v log
  | .unwind (.throwC e), [] => .failed e log
  | .unwind c, .seqK _ :: k => runM (.unwind c) k env log
  | .unwind c, .fin cl :: k => runM (.exec cl) (.afterFin (savedOf c) :: k) env log
  | .unwind c, .afterFin _ :: k => runM (.unwind c) k env log
termination_by modeW m k
decreasing_by all_goals (simp [modeW, stmtW, frameW, stackW] <;> omega)

/-- Modelled from the spec: RoutineState - Created, Suspended (with the
stored continuation and frame), Completed with the return value, or Failed
with the escaped failure.  Running is the transient mode inside `runM`. -/
inductive GenSt where
  | created (body : Stmt)
  | suspended (x : String) (k : List KFrame) (env : Env)
  | completed (v : JVal)
  | failed (e : JVal)

/-- A Suspendable Routine instance: its state plus the log of executed
`basic` labels. -/
structure Gen where
  st : GenSt
  log : List Nat

/-- Repackage an interpreter result as a routine state. -/
def outToGen : RunOut → Gen
  | .paused x k env log => ⟨.suspended x k env, log⟩
  | .completed v log => ⟨.completed v, log⟩
  | .failed e log => ⟨.failed e, log⟩

/-- The empty frame. -/
def env0 : Env := fun _ => .undefined

/-- A freshly created routine (state Created; nothing has run). -/
def mkGen (body : Stmt) : Gen := ⟨.created body, []⟩

/-- Modelled from the spec: start / resume-with-value.  On a Created routine
it runs the body from the beginning; on a Suspended routine it binds the
value at the pause point and continues from there; terminated routines are
never restarted in place. -/
def Gen.next (g : Gen) (v : JVal) : Gen :=
  match g.st with
  | .created body => outToGen (runM (.exec body) [] env0 g.log)
  | .suspended x k env => outToGen (runM .norm k (setE env x v) g.log)
  | _ => g

/-- Modelled from the spec: `forceReturn(value)` terminates the routine as if
the current pause point returned that value, honouring cleanup blocks; on a
Created routine it completes directly without executing any statement. -/
def Gen.forceReturn (g : Gen) (v : JVal) : Gen :=
  match g.st with
  | .created _ => ⟨.completed v, g.log⟩
  | .suspended _ k env => outToGen (runM (.unwind (.retC v)) k env g.log)
  | _ => g

/-- Modelled from the spec: `forceThrow(error)` raises the error at the
current pause point, honouring cleanup blocks. -/
def Gen.forceThrow (g : Gen) (e : JVal) : Gen :=
  match g.st with
  | .created _ => ⟨.failed e, g.log⟩
  | .suspended _ k env => outToGen (runM (.unwind (.throwC e)) k env g.log)
  | _ => g

/-- Straight-line code: a list of labelled frame transformations. -/
def sline : List (Nat × (Env → Env)) → Stmt
  | [] => .skip
  | (l, f) :: ps => .seq (.basic l f) (sline ps)

/-- Effect of straight-line code on the frame. -/
def applyE : List (Nat × (Env → Env)) → Env → Env
  | [], env => env
  | (_, f) :: ps, env => applyE ps (f env)

/-- Labels of straight-line code, in order. -/
def labelsOf (ps : List (Nat × (Env → Env))) : List Nat := ps.map Prod.fst

/-- A cleanup block that itself contains a pause point: straight-line code,
then a pause binding `z`, then more straight-line code. -/
def cleanupProg (cpre : List (Nat × (Env → Env))) (z : String)
    (cpost : List (Nat × (Env → Env))) : Stmt :=
  .seq (sline cpre) (.seq (.pause z) (sline cpost))

/-- A routine body that pauses twice: straight-line code, a pause binding
`a`, straight-line code, a pause binding `b`, straight-line code, then a
return computed from the frame. -/
def twoPauseProg (pre mid post : List (Nat × (Env → Env))) (res : Env → JVal) : Stmt :=
  .seq (sline pre)
    (.seq (.pause "a")
      (.seq (sline mid)
        (.seq (.pause "b")
          (.seq (sline post) (.ret res)))))

/- ------------------------------------------------------------------ -/
/- Helper lemmas                                                       -/
/- ------------------------------------------------------------------ -/

lemma resolvedAt_addSub (s : Machine) (q pid : Nat) (sub : Sub) :
    resolvedAt (addSub s q sub) pid = resolvedAt s pid := by
  cases h : s.promises q with
  | none => simp [addSub, h]
  | some pr =>
    cases hst : pr.status with
    | pending =>
      by_cases hq : pid = q
      · subst hq; simp [addSub, h, hst, resolvedAt, updP]
      · simp [addSub, h, hst, resolvedAt, updP, hq]
    | settled o => simp [addSub, h, hst, resolvedAt]

lemma resolvedAt_settle (s : Machine) (q pid : Nat) (o : Outcome) :
    resolvedAt (settle s q o) pid = resolvedAt s pid := by
  cases h : s.promises q with
  | none => simp [settle, h]
  | some pr =>
    cases hst : pr.status with
    | pending =>
      by_cases hq : pid = q
      · subst hq; simp [settle, h, hst, resolvedAt, updP]
      · simp [settle, h, hst, resolvedAt, updP, hq]
    | settled o2 => simp [settle, h, hst, resolvedAt]

lemma resolvedAt_resolveInternal (s : Machine) (pid pid2 : Nat) (v : JVal) :
    resolvedAt (resolveInternal s pid v) pid2 = resolvedAt s pid2 := by
  cases v <;> simp [resolveInternal, resolvedAt_addSub, resolvedAt_settle]

lemma resolvedAt_markResolved (s : Machine) (pid : Nat) :
    resolvedAt (markResolved s pid) pid = true := by
  cases h : s.promises pid with
  | none => simp [markResolved, h, resolvedAt]
  | some pr => simp [markResolved, h, resolvedAt, updP]

lemma fulfill_of_resolved (s : Machine) (pid : Nat) (v : JVal)
    (h : resolvedAt s pid = true) : fulfill s pid v = s := by
  unfold resolvedAt at h
  cases hp : s.promises pid with
  | none => simp [fulfill, hp]
  | some pr => rw [hp] at h; simp only at h; simp [fulfill, hp, h]

lemma reject_of_resolved (s : Machine) (pid : Nat) (e : JVal)
    (h : resolvedAt s pid = true) : reject s pid e = s := by
  unfold resolvedAt at h
  cases hp : s.promises pid with
  | none => simp [reject, hp]
  | some pr => rw [hp] at h; simp only at h; simp [reject, hp, h]

lemma resolvedAt_fulfill (s : Machine) (pid : Nat) (v : JVal) :
    resolvedAt (fulfill s pid v) pid = true := by
  cases hp : s.promises pid with
  | none => simp [fulfill, hp, resolvedAt]
  | some pr =>
    by_cases hr : pr.resolved
    · simp [fulfill, hp, hr, resolvedAt]
    · simp [fulfill, hp, hr, resolvedAt_resolveInternal, resolvedAt_markResolved]

lemma resolvedAt_reject (s : Machine) (pid : Nat) (e : JVal) :
    resolvedAt (reject s pid e) pid = true := by
  cases hp : s.promises pid with
  | none => simp [reject, hp, resolvedAt]
  | some pr =>
    by_cases hr : pr.resolved
    · simp [reject, hp, hr, resolvedAt]
    · simp [reject, hp, hr, resolvedAt_settle, resolvedAt_markResolved]

lemma log_addSub (s : Machine) (q : Nat) (sub : Sub) : (addSub s q sub).log = s.log := by
  cases h : s.promises q with
  | none => simp [addSub, h]
  | some pr => cases hst : pr.status <;> simp [addSub, h, hst]

lemma log_settle (s : Machine) (q : Nat) (o : Outcome) : (settle s q o).log = s.log := by
  cases h : s.promises q with
  | none => simp [settle, h]
  | some pr => cases hst : pr.status <;> simp [settle, h, hst]

lemma log_markResolved (s : Machine) (q : Nat) : (markResolved s q).log = s.log := by
  cases h : s.promises q with
  | none => simp [markResolved, h]
  | some pr => simp [markResolved, h]

lemma log_resolveInternal (s : Machine) (pid : Nat) (v : JVal) :
    (resolveInternal s pid v).log = s.log := by
  cases v <;> simp [resolveInternal, log_addSub, log_settle]

lemma log_fulfill (s : Machine) (pid : Nat) (v : JVal) : (fulfill s pid v).log = s.log := by
  cases h : s.promises pid with
  | none => simp [fulfill, h]
  | some pr =>
    by_cases hr : pr.resolved <;>
      simp [fulfill, h, hr, log_resolveInternal, log_markResolved]

lemma log_reject (s : Machine) (pid : Nat) (e : JVal) : (reject s pid e).log = s.log := by
  cases h : s.promises pid with
  | none => simp [reject, h]
  | some pr =>
    by_cases hr : pr.resolved <;>
      simp [reject, h, hr, log_settle, log_markResolved]

lemma log_subscribe (s : Machine) (pid : Nat) (onF onR : Option (JVal → RResult)) :
    (subscribe s pid onF onR).1.log = s.log := by
  simp [subscribe, log_addSub, create]

lemma runUntilIdle_empty (n : Nat) (s : Machine) (h : s.queue = []) :
    runUntilIdle n s = s := by
  cases n with
  | zero => rfl
  | succ m => simp [runUntilIdle, h]

lemma runUntilIdle_cons (n : Nat) (s : Machine) (t : Task) (q : List Task)
    (h : s.queue = t :: q) :
    runUntilIdle (n + 1) s = runUntilIdle n (runTask { s with queue := q } t) := by
  simp [runUntilIdle, h]

lemma runM_sline (ps : List (Nat × (Env → Env))) (k : List KFrame) (env : Env)
    (log : List Nat) :
    runM (.exec (sline ps)) k env log = runM .norm k (applyE ps env) (log ++ labelsOf ps) := by
  induction ps generalizing k env log with
  | nil => simp [sline, applyE, labelsOf, runM]
  | cons p ps ih =>
    obtain ⟨l, f⟩ := p
    simp [sline, applyE, labelsOf, runM, ih]

lemma runM_unwind_seqKs (ss : List Stmt) (c : Comp) (k : List KFrame) (env : Env)
    (log : List Nat) :
    runM (.unwind c) (ss.map .seqK ++ k) env log = runM (.unwind c) k env log := by
  induction ss with
  | nil => simp
  | cons a ss ih => cases c <;> simp [runM, ih]

/- ------------------------------------------------------------------ -/
/- Claim theorems                                                      -/
/- ------------------------------------------------------------------ -/

/-- C1: a reaction subscribed to a DeferredValue is never run within the same
synchronous call that subscribed it or that settled the value - `subscribe`,
`fulfill` and `reject` leave the execution log untouched, and when the value
is already settled at subscribe time the reaction is scheduled onto the
Scheduler queue (to run on a later turn) instead of running synchronously. -/
theorem reactions_deferred (s : Machine) (pid : Nat)
    (onF onR : Option (JVal → RResult)) (v e : JVal) :
    (subscribe s pid onF onR).1.log = s.log ∧
    (fulfill s pid v).log = s.log ∧
    (reject s pid e).log = s.log ∧
    (∀ pr o, s.promises pid = some pr → pr.status = .settled o → pid ≠ s.nextId →
      (subscribe s pid onF onR).1.queue =
        s.queue ++ [Task.react ⟨toSpec onF, toSpec onR, s.nextId⟩ o]) := by
  refine ⟨log_subscribe s pid onF onR, log_fulfill s pid v, log_reject s pid e, ?_⟩
  intro pr o hpr hst hne
  simp [subscribe, addSub, create, updP, hne, hpr, hst]

/-- Witness for C1 on a concrete machine holding an already-fulfilled value. -/
theorem reactions_deferred_witness :
    (subscribe wSettled 0 none none).1.log = wSettled.log ∧
    (fulfill wSettled 0 (.num 7)).log = wSettled.log ∧
    (reject wSettled 0 (.str "boom")).log = wSettled.log ∧
    (subscribe wSettled 0 none none).1.queue =
      wSettled.queue ++
        [Task.react ⟨toSpec none, toSpec none, wSettled.nextId⟩ (.fulfilled (.num 5))] := by
  obtain ⟨h1, h2, h3, h4⟩ :=
    reactions_deferred wSettled 0 none none (.num 7) (.str "boom")
  exact ⟨h1, h2, h3,
    h4 ⟨.settled (.fulfilled (.num 5)), true, [], []⟩ (.fulfilled (.num 5)) rfl rfl
      (by decide)⟩

/-- C2: after the first call to fulfill or reject on the resolver of a
DeferredValue, every subsequent fulfill or reject call is a silent no-op -
the whole machine (hence the settled state and the carried value/error) is
unchanged by the later calls. -/
theorem settle_first_wins (s : Machine) (pid : Nat) (v w e d : JVal) :
    fulfill (fulfill s pid v) pid w = fulfill s pid v ∧
    reject (fulfill s pid v) pid d = fulfill s pid v ∧
    fulfill (reject s pid e) pid w = reject s pid e ∧
    reject (reject s pid e) pid d = reject s pid e :=
  ⟨fulfill_of_resolved _ _ _ (resolvedAt_fulfill s pid v),
   reject_of_resolved _ _ _ (resolvedAt_fulfill s pid v),
   fulfill_of_resolved _ _ _ (resolvedAt_reject s pid e),
   reject_of_resolved _ _ _ (resolvedAt_reject s pid e)⟩

/-- C3: with three inputs fulfilled with values n1, n2, n3 (settled here in
the scrambled order third, first, second), `allOf` fulfills with the ordered
collection in input order; if one input rejects, `allOf` rejects with the
first rejection reason to fire regardless of the other inputs, and with two
rejections the first one to fire wins. -/
theorem allOf_ordered_collection (n1 n2 n3 : Nat) (se e1 e2 : String) :
    (statusOf
      (runUntilIdle 10
        (fulfill
          (fulfill
            (fulfill
              (allOf (create (create (create mkMachine).1).1).1 [0, 1, 2]).1
              2 (.num n3))
            0 (.num n1))
          1 (.num n2)))
      3 = some (.settled (.fulfilled (.list [.num n1, .num n2, .num n3])))) ∧
    (statusOf
      (runUntilIdle 10
        (fulfill
          (fulfill
            (reject
              (allOf (create (create (create mkMachine).1).1).1 [0, 1, 2]).1
              1 (.str se))
            0 (.num n1))
          2 (.num n3)))
      3 = some (.settled (.rejected (.str se)))) ∧
    (statusOf
      (runUntilIdle 10
        (reject
          (reject
            (allOf (create (create (create mkMachine).1).1).1 [0, 1, 2]).1
            1 (.str e1))
          2 (.str e2)))
      3 = some (.settled (.rejected (.str e1)))) :=
  ⟨rfl, rfl, rfl⟩

/-- C4: `firstSettled` settles identically to whichever input settles first
in scheduling order - a first rejection wins over a later fulfillment, a
first fulfillment wins over a later rejection, and a later fulfillment of
the other input has no effect on the result. -/
theorem firstSettled_first_wins (sv sw se : String) :
    (statusOf
      (runUntilIdle 10
        (fulfill
          (reject (firstSettled (create (create mkMachine).1).1 [0, 1]).1 0 (.str se))
          1 (.str sv)))
      2 = some (.settled (.rejected (.str se)))) ∧
    (statusOf
      (runUntilIdle 10
        (reject
          (fulfill (firstSettled (create (create mkMachine).1).1 [0, 1]).1 0 (.str sv))
          1 (.str se)))
      2 = some (.settled (.fulfilled (.str sv)))) ∧
    (statusOf
      (runUntilIdle 10
        (fulfill
          (fulfill (firstSettled (create (create mkMachine).1).1 [0, 1]).1 0 (.str sv))
          1 (.str sw)))
      2 = some (.settled (.fulfilled (.str sv)))) :=
  ⟨rfl, rfl, rfl⟩

/-- C5: fulfilling a DeferredValue with the observer handle of another defers
its settlement - it stays Pending while the inner value is Pending, then
adopts the inner outcome (rejected with the inner reason, or fulfilled with
the inner value); rejecting with an observer handle does not adopt and just
rejects with the handle itself as the reason. -/
theorem fulfill_adopts_inner_outcome (sv se : String) :
    (statusOf (runUntilIdle 10 (fulfill (create (create mkMachine).1).1 1 (.handle 0))) 1 =
      some .pending) ∧
    (statusOf
      (runUntilIdle 10
        (reject (fulfill (create (create mkMachine).1).1 1 (.handle 0)) 0 (.str se)))
      1 = some (.settled (.rejected (.str se)))) ∧
    (statusOf
      (runUntilIdle 10
        (fulfill (fulfill (create (create mkMachine).1).1 1 (.handle 0)) 0 (.str sv)))
      1 = some (.settled (.fulfilled (.str sv)))) ∧
    (statusOf
      (runUntilIdle 10 (reject (create (create mkMachine).1).1 1 (.handle 0)))
      1 = some (.settled (.rejected (.handle 0)))) :=
  ⟨rfl, rfl, rfl, rfl⟩

/-- C6: the DeferredValue returned by subscribe is rejected with the cause
when the reaction throws, rejected with the inner reason when the reaction
returns the handle of a rejected inner value, fulfilled with the return
value when the reaction returns normally (even for an on-reject handler),
and, when the reaction for the relevant branch is omitted, settles exactly
as the source did (pass-through in both branches). -/
theorem subscribe_reaction_outcomes (sv se sm sw : String) :
    (statusOf
      (runUntilIdle 10
        (subscribe (fulfill (create mkMachine).1 0 (.str sv)) 0
          (some fun _ => .err (.str sm)) none).1)
      1 = some (.settled (.rejected (.str sm)))) ∧
    (statusOf
      (runUntilIdle 10
        (subscribe
          (fulfill (create (reject (create mkMachine).1 0 (.str se))).1 1 (.str sv)) 1
          (some fun _ => .ok (.handle 0)) none).1)
      2 = some (.settled (.rejected (.str se)))) ∧
    (statusOf
      (runUntilIdle 10
        (subscribe (reject (create mkMachine).1 0 (.str se)) 0 none
          (some fun _ => .ok (.str sw))).1)
      1 = some (.settled (.fulfilled (.str sw)))) ∧
    (statusOf
      (runUntilIdle 10
        (subscribe (fulfill (create mkMachine).1 0 (.str sv)) 0 none none).1)
      1 = some (.settled (.fulfilled (.str sv)))) ∧
    (statusOf
      (runUntilIdle 10
        (subscribe (reject (create mkMachine).1 0 (.str se)) 0 none none).1)
      1 = some (.settled (.rejected (.str se)))) :=
  ⟨rfl, rfl, rfl, rfl, rfl⟩

/-- C7: delivering forceReturn or forceThrow to a Suspended routine whose
cleanup block itself contains a pause point does not terminate it - the
routine is again in the Suspended state (paused inside the cleanup), and
only when that inner pause is resumed does it finalize with the forced
outcome (Completed with the forced value, or Failed with the forced error). -/
theorem cleanup_pause_defers_termination (ss : List Stmt)
    (cpre cpost : List (Nat × (Env → Env))) (z x : String) (env : Env)
    (log : List Nat) (v e u : JVal) :
    let g : Gen := ⟨.suspended x (ss.map .seqK ++ [.fin (cleanupProg cpre z cpost)]) env, log⟩
    (Gen.forceReturn g v).st =
        .suspended z [.seqK (sline cpost), .afterFin (.retS v)] (applyE cpre env) ∧
    ((Gen.forceReturn g v).next u).st = .completed v ∧
    (Gen.forceThrow g e).st =
        .suspended z [.seqK (sline cpost), .afterFin (.throwS e)] (applyE cpre env) ∧
    ((Gen.forceThrow g e).next u).st = .failed e := by
  refine ⟨?_, ?_, ?_, ?_⟩ <;>
    simp [Gen.forceReturn, Gen.forceThrow, Gen.next, cleanupProg, outToGen,
      runM_unwind_seqKs, runM, savedOf, runM_sline]

/-- C8: a routine that pauses twice, resumed with x at the first pause and y
at the second, completes with a value computed purely from x and y through
the frame, its log is exactly one pass over the body in order, and a label
occurring exactly once before the first pause and nowhere later occurs
exactly once in the final log - no statement before the first pause point is
ever executed a second time during the resumptions. -/
theorem two_pause_pure_resume (pre mid post : List (Nat × (Env → Env)))
    (res : Env → JVal) (x y : JVal) (l : Nat)
    (h1 : (labelsOf pre).count l = 1)
    (h2 : l ∉ labelsOf mid) (h3 : l ∉ labelsOf post) :
    ((((mkGen (twoPauseProg pre mid post res)).next .undefined).next x).next y).st =
      .completed
        (res (applyE post (setE (applyE mid (setE (applyE pre env0) "a" x)) "b" y))) ∧
    ((((mkGen (twoPauseProg pre mid post res)).next .undefined).next x).next y).log =
      labelsOf pre ++ labelsOf mid ++ labelsOf post ∧
    (((((mkGen (twoPauseProg pre mid post res)).next .undefined).next x).next y).log).count l
      = 1 := by
  refine ⟨?_, ?_, ?_⟩
  · simp [mkGen, Gen.next, twoPauseProg, outToGen, runM, runM_sline]
  · simp [mkGen, Gen.next, twoPauseProg, outToGen, runM, runM_sline]
  · simp [mkGen, Gen.next, twoPauseProg, outToGen, runM, runM_sline,
      List.count_append, h1, List.count_eq_zero.mpr h2, List.count_eq_zero.mpr h3]

/-- Witness for C8 on a concrete two-pause routine. -/
theorem two_pause_pure_resume_witness :
    ((((mkGen (twoPauseProg [(0, fun env => env)] [(1, fun env => env)] []
          (fun _ => .str "result"))).next .undefined).next (.str "p")).next (.str "q")).st =
      .completed
        ((fun _ => JVal.str "result")
          (applyE [] (setE (applyE [(1, fun env => env)]
            (setE (applyE [(0, fun env => env)] env0) "a" (.str "p"))) "b" (.str "q")))) ∧
    ((((mkGen (twoPauseProg [(0, fun env => env)] [(1, fun env => env)] []
          (fun _ => .str "result"))).next .undefined).next (.str "p")).next (.str "q")).log =
      labelsOf [(0, fun env => env)] ++ labelsOf [(1, fun env => env)] ++ labelsOf [] ∧
    (((((mkGen (twoPauseProg [(0, fun env => env)] [(1, fun env => env)] []
          (fun _ => .str "result"))).next .undefined).next (.str "p")).next
            (.str "q")).log).count 0 = 1 :=
  two_pause_pure_resume [(0, fun env => env)] [(1, fun env => env)] []
    (fun _ => .str "result") (.str "p") (.str "q") 0 (by decide) (by decide) (by decide)

/-- C9: tasks submitted from outside any running task run in strict FIFO
order - with T1, T2 submitted in that order onto an idle scheduler, a pass
of runUntilIdle runs T1 to completion first, and a task T3 that T1 submits
during its own execution runs after T2, in the same pass, leaving the queue
empty. -/
theorem scheduler_strict_fifo (s : Machine) (n1 n2 n3 k : Nat) (h : s.queue = []) :
    (runUntilIdle (k + 3) (submit (submit s (.job n1 [.job n3 []])) (.job n2 []))).log =
      s.log ++ [.ran n1, .ran n2, .ran n3] ∧
    (runUntilIdle (k + 3) (submit (submit s (.job n1 [.job n3 []])) (.job n2 []))).queue
      = [] := by
  rw [show k + 3 = k + 2 + 1 from rfl,
      runUntilIdle_cons (k + 2) _ (.job n1 [.job n3 []]) [.job n2 []] (by simp [submit, h]),
      show k + 2 = k + 1 + 1 from rfl,
      runUntilIdle_cons (k + 1) _ (.job n2 []) [.job n3 []] (by simp [submit, runTask]),
      show k + 1 = k + 0 + 1 from rfl,
      runUntilIdle_cons (k + 0) _ (.job n3 []) [] (by simp [submit, runTask]),
      runUntilIdle_empty (k + 0) _ (by simp [submit, runTask])]
  simp [submit, runTask]

/-- Witness for C9 on the empty machine with jobs 1, 2, 3 and minimal fuel. -/
theorem scheduler_strict_fifo_witness :
    (runUntilIdle 3 (submit (submit mkMachine (.job 1 [.job 3 []])) (.job 2 []))).log =
      mkMachine.log ++ [.ran 1, .ran 2, .ran 3] ∧
    (runUntilIdle 3 (submit (submit mkMachine (.job 1 [.job 3 []])) (.job 2 []))).queue
      = [] :=
  scheduler_strict_fifo mkMachine 1 2 3 0 rfl

/-- C10: forceReturn on a routine still in the Created state is permitted and
moves it directly to Completed carrying the forced value, with an empty
execution log - no statement of the body ran; termination is not restricted
to the Suspended state. -/
theorem newborn_forceReturn_completes (body : Stmt) (v : JVal) :
    (Gen.forceReturn (mkGen body) v).st = .completed v ∧
    (Gen.forceReturn (mkGen body) v).log = [] :=
  ⟨rfl, rfl⟩

end Async
